import Mathlib

/-!
Shallow embedding of the LiveTicket lottery simulator
(`src/lottery/lottery_stage.py` and `src/lottery/lottery_simulator.py`).

Python real arithmetic (floats) is modelled exactly by `ℚ`; Python integers by
`ℤ`; Python's built-in `round` (round-half-to-even, returning an integer) by
`pyRound`; `raise ValueError(msg)` by `Except.error msg`.  The Python field
`applicant_core_fan_ratio` is rendered here as `applicant_core_fan_frac`
(same meaning, Lean-friendly name), and `duplicate_当選_config` as
`duplicate_win_config`.  Dictionaries (`user_target_events_details`,
`final_probabilities`) are modelled as insertion-ordered association lists;
`dictInsert` reproduces Python's dict assignment (overwrite in place when the
key exists, append otherwise).
-/

attribute [local semireducible] Rat.mul Rat.inv Rat.add Rat.sub Rat.ofScientific

/-- Python's built-in `round` on an exact rational: round half to even. -/
def pyRound (x : ℚ) : ℤ :=
  if x - ⌊x⌋ < 1/2 then ⌊x⌋
  else if 1/2 < x - ⌊x⌋ then ⌊x⌋ + 1
  else if ⌊x⌋ % 2 = 0 then ⌊x⌋ else ⌊x⌋ + 1

/-- Python dict assignment `d[k] = v`: overwrite the entry in place if the key
is present, otherwise append it. -/
def dictInsert : List (String × ℚ) → String → ℚ → List (String × ℚ)
  | [], k, v => [(k, v)]
  | p :: rest, k, v => if p.1 = k then (k, v) :: rest else p :: dictInsert rest k v

/-- Embedding of `LotteryStage.__init__`: four configuration fields plus six
computed fields that are zero-initialized. -/
structure LotteryStage where
  name : String
  applicant_core_fan_frac : ℚ
  additional_applicants : ℤ
  weight : ℚ
  allocated_seats_original : ℤ
  effective_seats_for_new_winners : ℤ
  premise_applicants_for_stage_type : ℤ
  actual_applicants_for_stage : ℤ
  winners_in_stage : ℤ
  conditional_win_prob_in_stage : ℚ
  deriving DecidableEq, Repr

/-- `LotteryStage(name, applicant_core_fan_ratio, additional_applicants, weight)`. -/
def mkStage (name : String) (frac : ℚ) (addl : ℤ) (w : ℚ) : LotteryStage :=
  { name := name
    applicant_core_fan_frac := frac
    additional_applicants := addl
    weight := w
    allocated_seats_original := 0
    effective_seats_for_new_winners := 0
    premise_applicants_for_stage_type := 0
    actual_applicants_for_stage := 0
    winners_in_stage := 0
    conditional_win_prob_in_stage := 0 }

/-- The `duplicate_当選_config` dict: the `"type"` and `"rate"` keys, each
possibly absent (`.get` with a default is used by the source). -/
structure DupConfig where
  typeKey : Option String
  rateKey : Option ℚ
  deriving DecidableEq, Repr

/-- Embedding of the `LotterySimulator` attribute record. -/
structure LotterySimulator where
  total_overall_attendance : ℤ
  num_total_events : ℤ
  user_target_events_details : List (String × ℤ)
  core_fan_total_population : ℤ
  duplicate_win_config : DupConfig
  stages : List LotteryStage
  total_weight : ℚ
  seats_per_event : ℚ
  user_total_target_events : ℤ
  total_seats_for_user_events : ℚ
  results_per_stage_raw : List LotteryStage
  final_probabilities : List (String × ℚ)
  deriving DecidableEq, Repr

/-- Embedding of `LotterySimulator.__init__`.  The two `ValueError`s are raised
in source order: the event-count check precedes the division computing
`seats_per_event`, which precedes the target-event-count check. -/
def mkSimulator (att numEv : ℤ) (targets : List (String × ℤ)) (pop : ℤ)
    (dup : DupConfig) : Except String LotterySimulator :=
  if numEv ≤ 0 then Except.error "総公演数は0より大きい値である必要があります。"
  else
    let spe : ℚ := (att : ℚ) / (numEv : ℚ)
    let utte : ℤ := (targets.map Prod.snd).sum
    if utte ≤ 0 then Except.error "ユーザーが申し込む公演数は0より大きい値である必要があります。"
    else Except.ok
      { total_overall_attendance := att
        num_total_events := numEv
        user_target_events_details := targets
        core_fan_total_population := pop
        duplicate_win_config := dup
        stages := []
        total_weight := 0
        seats_per_event := spe
        user_total_target_events := utte
        total_seats_for_user_events := spe * (utte : ℚ)
        results_per_stage_raw := []
        final_probabilities := [] }

/-- Embedding of `LotterySimulator.add_stage`, statement by statement: the
returned simulator is the state at method exit, paired with the raised message
(if any).  All three validations precede the two mutations, exactly as in the
source. -/
def add_stage_proc (sim : LotterySimulator) (name : String) (frac : ℚ)
    (addl : ℤ) (w : ℚ) : LotterySimulator × Option String :=
  if ¬ (0 ≤ frac ∧ frac ≤ 1) then
    (sim, some ("ステージ「" ++ name ++ "」のコアファン申込割合は0.0から1.0の間である必要があります。"))
  else if addl < 0 then
    (sim, some ("ステージ「" ++ name ++ "」の追加申込者数は0以上である必要があります。"))
  else if w ≤ 0 then
    (sim, some ("ステージ「" ++ name ++ "」の比重は0より大きい値である必要があります。"))
  else
    ({ sim with stages := sim.stages ++ [mkStage name frac addl w],
                total_weight := sim.total_weight + w }, none)

/-- `add_stage` as a fallible operation (raise = `Except.error`). -/
def add_stage (sim : LotterySimulator) (name : String) (frac : ℚ) (addl : ℤ)
    (w : ℚ) : Except String LotterySimulator :=
  match add_stage_proc sim name frac addl w with
  | (sim', none) => Except.ok sim'
  | (_, some msg) => Except.error msg

/-- The seat-assignment loop of `_allocate_seats_to_stages`: every stage except
the last gets `round(total * weight / totalWeight)`; the last gets
`round(total - running_allocated_sum)`. -/
def allocStages (total W : ℚ) : List LotteryStage → ℤ → List LotteryStage
  | [], _ => []
  | s :: rest, running =>
    let seats : ℤ :=
      if rest.isEmpty then pyRound (total - (running : ℚ))
      else pyRound (total * (s.weight / W))
    { s with allocated_seats_original := seats } :: allocStages total W rest (running + seats)

/-- The `reduction_rate` computation of `_allocate_seats_to_stages`: `0.0`
unless the config type is `"seat_reduction"`, in which case the (defaulted)
rate is range-checked. -/
def reductionRate (cfg : DupConfig) : Except String ℚ :=
  if cfg.typeKey = some "seat_reduction" then
    let r := cfg.rateKey.getD 0
    if ¬ (0 ≤ r ∧ r ≤ 1) then Except.error "座席減少率は0.0から1.0の間である必要があります。"
    else Except.ok r
  else Except.ok 0

/-- The final loop of `_allocate_seats_to_stages`:
`effective_seats_for_new_winners = round(allocated_seats_original * (1 - reduction_rate))`. -/
def effectiveStages (rate : ℚ) (ss : List LotteryStage) : List LotteryStage :=
  ss.map fun s =>
    { s with effective_seats_for_new_winners :=
        pyRound ((s.allocated_seats_original : ℚ) * (1 - rate)) }

/-- Embedding of `_allocate_seats_to_stages`, returning the updated stage list. -/
def allocate_seats (sim : LotterySimulator) : Except String (List LotteryStage) :=
  if sim.total_weight = 0 ∧ sim.stages ≠ [] then
    Except.error "選考ステージが追加されていますが、比重の合計が0です。"
  else if sim.stages.isEmpty then Except.ok sim.stages
  else
    match reductionRate sim.duplicate_win_config with
    | Except.error e => Except.error e
    | Except.ok rate =>
      Except.ok (effectiveStages rate
        (allocStages sim.total_seats_for_user_events sim.total_weight sim.stages 0))

/-- One iteration of the `calculate_probabilities` stage loop: the per-stage
computed fields written into the stage, given the cumulative number of earlier
winners. -/
def stepStage (pop : ℤ) (cum : ℤ) (s : LotteryStage) : LotteryStage :=
  let potential := pyRound ((pop : ℚ) * s.applicant_core_fan_frac)
  let premise := potential + s.additional_applicants
  let actual := max 0 (premise - cum)
  if actual = 0 ∨ s.effective_seats_for_new_winners = 0 then
    { s with premise_applicants_for_stage_type := premise
             actual_applicants_for_stage := actual
             winners_in_stage := 0
             conditional_win_prob_in_stage := 0 }
  else
    let wins := min actual s.effective_seats_for_new_winners
    { s with premise_applicants_for_stage_type := premise
             actual_applicants_for_stage := actual
             winners_in_stage := wins
             conditional_win_prob_in_stage := (wins : ℚ) / (actual : ℚ) }

/-- The stage loop of `calculate_probabilities`, threading
`cumulative_new_winners`, `prob_of_reaching_stage_unwon` and the
`final_probabilities` dict; returns the processed stages, the dict, and the
final value of `prob_of_reaching_stage_unwon`. -/
def calcLoop (pop : ℤ) : List LotteryStage → ℤ → ℚ → List (String × ℚ) →
    List LotteryStage × List (String × ℚ) × ℚ
  | [], _, probUnwon, fp => ([], fp, probUnwon)
  | s :: rest, cum, probUnwon, fp =>
    let s' := stepStage pop cum s
    let fp' := dictInsert fp (s.name ++ "で当選")
      (probUnwon * s'.conditional_win_prob_in_stage)
    let res := calcLoop pop rest (cum + s'.winners_in_stage)
      (probUnwon * (1 - s'.conditional_win_prob_in_stage)) fp'
    (s' :: res.1, res.2.1, res.2.2)

/-- Embedding of `calculate_probabilities`: the zero-stage early return, then
seat allocation, the stage loop, and the sentinel no-win entry.  Returns the
updated simulator together with the returned dict. -/
def calculate_probabilities (sim : LotterySimulator) :
    Except String (LotterySimulator × List (String × ℚ)) :=
  if sim.stages.isEmpty then
    Except.ok ({ sim with final_probabilities := [("全選考で落選", (1 : ℚ))] },
      [("全選考で落選", (1 : ℚ))])
  else
    match allocate_seats sim with
    | Except.error e => Except.error e
    | Except.ok allocated =>
      let res := calcLoop sim.core_fan_total_population allocated 0 1 []
      let fp := dictInsert res.2.1 "全選考で落選" res.2.2
      Except.ok ({ sim with stages := res.1, results_per_stage_raw := res.1,
                            final_probabilities := fp }, fp)

/-- A placeholder stage used as the default of `List.getD`. -/
def dummyStage : LotteryStage := mkStage "" 0 0 0

/-- A placeholder simulator used as the default when destructuring `Except`. -/
def dummySimulator : LotterySimulator :=
  { total_overall_attendance := 0
    num_total_events := 1
    user_target_events_details := []
    core_fan_total_population := 0
    duplicate_win_config := { typeKey := none, rateKey := none }
    stages := []
    total_weight := 0
    seats_per_event := 0
    user_total_target_events := 0
    total_seats_for_user_events := 0
    results_per_stage_raw := []
    final_probabilities := [] }

/-- Extract the simulator from a construction/`add_stage` result. -/
def simOrD : Except String LotterySimulator → LotterySimulator
  | Except.ok s => s
  | Except.error _ => dummySimulator

/-- Extract the result pair from a `calculate_probabilities` result. -/
def exOrD : Except String (LotterySimulator × List (String × ℚ)) →
    LotterySimulator × List (String × ℚ)
  | Except.ok r => r
  | Except.error _ => (dummySimulator, [])

/-- The stage-configuration quadruple, preserved by every calculation phase. -/
def configOf (s : LotteryStage) : String × ℚ × ℤ × ℚ :=
  (s.name, s.applicant_core_fan_frac, s.additional_applicants, s.weight)

/-- Seat fields written by allocation and read (but never written) by the
probability loop. -/
def seatFieldsOf (s : LotteryStage) : ℤ × ℤ :=
  (s.allocated_seats_original, s.effective_seats_for_new_winners)

/-- Sum of the intermediate-stage seat formula over a stage list. -/
def interSum (total W : ℚ) (ss : List LotteryStage) : ℤ :=
  (ss.map (fun s => pyRound (total * (s.weight / W)))).sum

/-- Extract the stage list from an allocation result. -/
def listOrD : Except String (List LotteryStage) → List LotteryStage
  | Except.ok l => l
  | Except.error _ => []

/-- The empty duplicate-win configuration. -/
def dupNone : DupConfig := { typeKey := none, rateKey := none }

/-- Scenario B of the specification: `{"type": "seat_reduction", "rate": 0.2}`. -/
def dupB : DupConfig := { typeKey := some "seat_reduction", rateKey := some (1/5) }

/-- Scenario B simulator: `LotterySimulator(10000, 10, {"test": 1}, 1000, dupB)`. -/
def simB0 : LotterySimulator := simOrD (mkSimulator 10000 10 [("test", 1)] 1000 dupB)

/-- Scenario B after `add_stage("S1", 0.5, 0, 1)`. -/
def simB1 : LotterySimulator := simOrD (add_stage simB0 "S1" (1/2) 0 1)

/-- Scenario B after `add_stage("S2", 1.0, 0, 1)`. -/
def simB2 : LotterySimulator := simOrD (add_stage simB1 "S2" 1 0 1)

/-- Scenario B result of `calculate_probabilities()`. -/
def resB : LotterySimulator × List (String × ℚ) := exOrD (calculate_probabilities simB2)

/-- Scenario B with both stages carrying the same name `"S"`, first stage. -/
def simD1 : LotterySimulator := simOrD (add_stage simB0 "S" (1/2) 0 1)

/-- Scenario B with both stages carrying the same name `"S"`, second stage. -/
def simD2 : LotterySimulator := simOrD (add_stage simD1 "S" 1 0 1)

/-- Result of `calculate_probabilities()` for the duplicate-name scenario. -/
def resD : LotterySimulator × List (String × ℚ) := exOrD (calculate_probabilities simD2)

/-- A small valid configuration whose last stage is pushed to a negative seat
count by rounding overshoot: `LotterySimulator(2, 1, {"t": 1}, 10)` with four
stages of weights 3, 3, 3, 1. -/
def simN0 : LotterySimulator := simOrD (mkSimulator 2 1 [("t", 1)] 10 dupNone)

/-- Negative-seat scenario after `add_stage("S1", 1.0, 0, 3)`. -/
def simN1 : LotterySimulator := simOrD (add_stage simN0 "S1" 1 0 3)

/-- Negative-seat scenario after `add_stage("S2", 1.0, 0, 3)`. -/
def simN2 : LotterySimulator := simOrD (add_stage simN1 "S2" 1 0 3)

/-- Negative-seat scenario after `add_stage("S3", 1.0, 0, 3)`. -/
def simN3 : LotterySimulator := simOrD (add_stage simN2 "S3" 1 0 3)

/-- Negative-seat scenario after `add_stage("S4", 1.0, 0, 1)`. -/
def simN4 : LotterySimulator := simOrD (add_stage simN3 "S4" 1 0 1)

/-- Result of `calculate_probabilities()` for the negative-seat scenario. -/
def resN : LotterySimulator × List (String × ℚ) := exOrD (calculate_probabilities simN4)

/-- A configuration whose seat total is the half-integer 5/2:
`LotterySimulator(5, 2, {"t": 1}, 0)` with two stages of weight 1. -/
def simT0 : LotterySimulator := simOrD (mkSimulator 5 2 [("t", 1)] 0 dupNone)

/-- Half-integer scenario after `add_stage("A", 0.0, 0, 1)`. -/
def simT1 : LotterySimulator := simOrD (add_stage simT0 "A" 0 0 1)

/-- Half-integer scenario after `add_stage("B", 0.0, 0, 1)`. -/
def simT2 : LotterySimulator := simOrD (add_stage simT1 "B" 0 0 1)

/-- Stage list used for the weight-monotonicity witness. -/
def wC8ss : List LotteryStage := [mkStage "A" 0 0 1, mkStage "B" 0 0 1]

/-- Seat allocation result for scenario B. -/
def allocB : List LotteryStage := listOrD (allocate_seats simB2)

/-- Simulator states reachable through the public constructor and any sequence
of successful `add_stage` calls. -/
inductive Reachable : LotterySimulator → Prop where
  | init (att numEv : ℤ) (targets : List (String × ℤ)) (pop : ℤ) (dup : DupConfig)
      (sim : LotterySimulator) :
      mkSimulator att numEv targets pop dup = Except.ok sim → Reachable sim
  | step (sim : LotterySimulator) (name : String) (frac : ℚ) (addl : ℤ) (w : ℚ)
      (sim' : LotterySimulator) :
      Reachable sim → add_stage sim name frac addl w = Except.ok sim' → Reachable sim'

/-! ### Properties of `pyRound` -/

theorem pyRound_intCast (m : ℤ) : pyRound ((m : ℚ)) = m := by
  unfold pyRound
  rw [Int.floor_intCast]
  norm_num

theorem floor_le_pyRound (x : ℚ) : ⌊x⌋ ≤ pyRound x := by
  unfold pyRound
  split_ifs <;> omega

theorem pyRound_le_floor_add_one (x : ℚ) : pyRound x ≤ ⌊x⌋ + 1 := by
  unfold pyRound
  split_ifs <;> omega

theorem pyRound_mono {x y : ℚ} (h : x ≤ y) : pyRound x ≤ pyRound y := by
  have hf : ⌊x⌋ ≤ ⌊y⌋ := Int.floor_le_floor h
  rcases eq_or_lt_of_le hf with heq | hlt
  · unfold pyRound
    rw [← heq]
    have hxy : x - (⌊x⌋ : ℚ) ≤ y - (⌊x⌋ : ℚ) := by linarith
    split_ifs <;> first | omega | linarith
  · calc pyRound x ≤ ⌊x⌋ + 1 := pyRound_le_floor_add_one x
    _ ≤ ⌊y⌋ := by omega
    _ ≤ pyRound y := floor_le_pyRound y

theorem pyRound_zero : pyRound (0 : ℚ) = 0 := by
  have := pyRound_intCast 0
  simpa using this

theorem pyRound_nonneg {x : ℚ} (hx : 0 ≤ x) : 0 ≤ pyRound x := by
  have := pyRound_mono hx
  rwa [pyRound_zero] at this

theorem pyRound_le_intCast {x : ℚ} {m : ℤ} (h : x ≤ (m : ℚ)) : pyRound x ≤ m := by
  have := pyRound_mono h
  rwa [pyRound_intCast] at this

theorem pyRound_sub_intCast {x : ℚ} (hx : Int.fract x ≠ 1/2) (m : ℤ) :
    pyRound (x - (m : ℚ)) = pyRound x - m := by
  have hfr : x - (⌊x⌋ : ℚ) ≠ 1/2 := hx
  unfold pyRound
  rw [Int.floor_sub_int]
  have harg : x - (m : ℚ) - ((⌊x⌋ - m : ℤ) : ℚ) = x - (⌊x⌋ : ℚ) := by
    push_cast
    ring
  rw [harg]
  rcases lt_or_gt_of_ne hfr with hlt | hgt
  · simp only [if_pos hlt]
  · have h1 : ¬ (x - (⌊x⌋ : ℚ) < 1/2) := by linarith
    have h2 : (1 : ℚ)/2 < x - (⌊x⌋ : ℚ) := hgt
    simp only [if_neg h1, if_pos h2]
    omega

/-! ### List and dict helper lemmas -/

theorem getD_map_lt {α β : Type} (f : α → β) (d : α) (e : β) :
    ∀ (l : List α) (j : ℕ), j < l.length → (l.map f).getD j e = f (l.getD j d)
  | [], j, hj => by simp at hj
  | a :: l, 0, _ => rfl
  | a :: l, j + 1, hj => by
    simp only [List.map_cons, List.getD_cons_succ]
    exact getD_map_lt f d e l j (by simpa using hj)

theorem getD_mem {α : Type} (d : α) : ∀ (l : List α) (j : ℕ), j < l.length → l.getD j d ∈ l
  | [], j, hj => by simp at hj
  | a :: l, 0, _ => by simp
  | a :: l, j + 1, hj => by
    simp only [List.getD_cons_succ]
    exact List.mem_cons_of_mem a (getD_mem d l j (by simpa using hj))

theorem mem_of_map_eq {α β : Type} {f : α → β} {l₁ l₂ : List α}
    (h : l₁.map f = l₂.map f) {x : α} (hx : x ∈ l₁) : ∃ y ∈ l₂, f y = f x := by
  have : f x ∈ l₂.map f := by
    rw [← h]
    exact List.mem_map_of_mem f hx
  obtain ⟨y, hy, hfy⟩ := List.mem_map.mp this
  exact ⟨y, hy, hfy⟩

theorem dictInsert_of_not_mem {k : String} {v : ℚ} :
    ∀ {d : List (String × ℚ)}, k ∉ d.map Prod.fst → dictInsert d k v = d ++ [(k, v)]
  | [], _ => rfl
  | p :: rest, h => by
    have h1 : ¬ (p.1 = k) := by
      intro he
      exact h (by simp [← he])
    have h2 : k ∉ rest.map Prod.fst := by
      intro hm
      exact h (by simp [hm])
    simp only [dictInsert, if_neg h1, List.cons_append]
    rw [dictInsert_of_not_mem h2]

theorem dictInsert_forall {P : ℚ → Prop} {k : String} {v : ℚ} (hv : P v) :
    ∀ {d : List (String × ℚ)}, (∀ p ∈ d, P p.2) → ∀ p ∈ dictInsert d k v, P p.2
  | [], _, p, hp => by
    simp only [dictInsert, List.mem_singleton] at hp
    simpa [hp] using hv
  | q :: rest, hd, p, hp => by
    simp only [dictInsert] at hp
    split_ifs at hp with hq
    · rcases List.mem_cons.mp hp with h | h
      · simpa [h] using hv
      · exact hd p (List.mem_cons_of_mem q h)
    · rcases List.mem_cons.mp hp with h | h
      · exact hd p (by simp [h])
      · exact dictInsert_forall hv (fun r hr => hd r (List.mem_cons_of_mem q hr)) p h

theorem qsum_set : ∀ (l : List ℚ) (i : ℕ) (a : ℚ), i < l.length →
    (l.set i a).sum = l.sum - l.getD i 0 + a
  | [], i, a, hi => by simp at hi
  | x :: l, 0, a, _ => by
    simp [List.sum_cons]
    ring
  | x :: l, i + 1, a, hi => by
    simp only [List.set_cons_succ, List.sum_cons, List.getD_cons_succ]
    rw [qsum_set l i a (by simpa using hi)]
    ring

/-! ### String key lemmas -/

theorem string_append_right_cancel {a b c : String} (h : a ++ c = b ++ c) : a = b := by
  cases a with
  | mk da =>
    cases b with
    | mk db =>
      cases c with
      | mk dc =>
        have hd : da ++ dc = db ++ dc := congrArg String.data h
        have hlen : da.length = db.length := by
          have := congrArg List.length hd
          simp at this
          omega
        obtain ⟨h1, _⟩ := List.append_inj hd hlen
        rw [h1]

theorem winKey_ne_nowin (nm : String) : nm ++ "で当選" ≠ "全選考で落選" := by
  intro h
  have hd := congrArg String.data h
  have hsuf : "で当選".data = ['で', '当', '選'] := rfl
  have hfull : "全選考で落選".data = ['全', '選', '考'] ++ ['で', '落', '選'] := rfl
  rw [show (nm ++ "で当選").data = nm.data ++ "で当選".data from rfl, hsuf, hfull] at hd
  obtain ⟨_, h2⟩ := List.append_inj' hd rfl
  simp at h2

/-! ### Per-stage computation (`stepStage`) lemmas -/


theorem stepStage_config (pop cum : ℤ) (s : LotteryStage) :
    configOf (stepStage pop cum s) = configOf s := by
  dsimp only [stepStage, configOf]
  split <;> rfl

theorem stepStage_alloc (pop cum : ℤ) (s : LotteryStage) :
    (stepStage pop cum s).allocated_seats_original = s.allocated_seats_original := by
  dsimp only [stepStage]
  split <;> rfl

theorem stepStage_eff (pop cum : ℤ) (s : LotteryStage) :
    (stepStage pop cum s).effective_seats_for_new_winners = s.effective_seats_for_new_winners := by
  dsimp only [stepStage]
  split <;> rfl

theorem stepStage_premise (pop cum : ℤ) (s : LotteryStage) :
    (stepStage pop cum s).premise_applicants_for_stage_type =
      pyRound ((pop : ℚ) * s.applicant_core_fan_frac) + s.additional_applicants := by
  dsimp only [stepStage]
  split <;> rfl

theorem stepStage_actual (pop cum : ℤ) (s : LotteryStage) :
    (stepStage pop cum s).actual_applicants_for_stage =
      max 0 ((stepStage pop cum s).premise_applicants_for_stage_type - cum) := by
  dsimp only [stepStage]
  split <;> rfl

theorem stepStage_cases (pop cum : ℤ) (s : LotteryStage) :
    ((stepStage pop cum s).winners_in_stage = 0
      ∧ (stepStage pop cum s).conditional_win_prob_in_stage = 0)
    ∨ ((stepStage pop cum s).actual_applicants_for_stage ≠ 0
      ∧ s.effective_seats_for_new_winners ≠ 0
      ∧ (stepStage pop cum s).winners_in_stage =
          min (stepStage pop cum s).actual_applicants_for_stage s.effective_seats_for_new_winners
      ∧ (stepStage pop cum s).conditional_win_prob_in_stage =
          ((stepStage pop cum s).winners_in_stage : ℚ) /
            ((stepStage pop cum s).actual_applicants_for_stage : ℚ)) := by
  dsimp only [stepStage]
  split
  · exact Or.inl ⟨rfl, rfl⟩
  next h =>
    push_neg at h
    exact Or.inr ⟨h.1, h.2, rfl, rfl⟩

theorem stepStage_bounds (pop cum : ℤ) (s : LotteryStage)
    (he : 0 ≤ s.effective_seats_for_new_winners) :
    0 ≤ (stepStage pop cum s).actual_applicants_for_stage
    ∧ 0 ≤ (stepStage pop cum s).winners_in_stage
    ∧ (stepStage pop cum s).winners_in_stage ≤
        min (stepStage pop cum s).effective_seats_for_new_winners
          (stepStage pop cum s).actual_applicants_for_stage
    ∧ 0 ≤ (stepStage pop cum s).conditional_win_prob_in_stage
    ∧ (stepStage pop cum s).conditional_win_prob_in_stage ≤ 1 := by
  have hact : 0 ≤ (stepStage pop cum s).actual_applicants_for_stage := by
    rw [stepStage_actual]
    exact le_max_left _ _
  have heq := stepStage_eff pop cum s
  rcases stepStage_cases pop cum s with ⟨hw, hc⟩ | ⟨ha, he0, hw, hc⟩
  · refine ⟨hact, by rw [hw], ?_, by rw [hc], by rw [hc]; norm_num⟩
    rw [hw, heq]
    exact le_min he hact
  · have hapos : 0 < (stepStage pop cum s).actual_applicants_for_stage :=
      lt_of_le_of_ne hact (Ne.symm ha)
    have hepos : 0 < s.effective_seats_for_new_winners := lt_of_le_of_ne he (Ne.symm he0)
    refine ⟨hact, ?_, ?_, ?_, ?_⟩
    · rw [hw]
      exact le_min (le_of_lt hapos) (le_of_lt hepos)
    · rw [hw, heq, min_comm]
    · rw [hc]
      apply div_nonneg
      · exact_mod_cast le_trans (le_min (le_of_lt hapos) (le_of_lt hepos)) (le_of_eq hw.symm)
      · exact_mod_cast hact
    · rw [hc]
      rw [div_le_one (by exact_mod_cast hapos)]
      rw [hw]
      exact_mod_cast min_le_left _ _

/-! ### Structural lemmas about the `calculate_probabilities` loop -/


theorem stepStage_seatFields (pop cum : ℤ) (s : LotteryStage) :
    seatFieldsOf (stepStage pop cum s) = seatFieldsOf s := by
  dsimp only [stepStage, seatFieldsOf]
  split <;> rfl

theorem calcLoop_length (pop : ℤ) : ∀ (ss : List LotteryStage) (cum : ℤ) (u : ℚ)
    (fp : List (String × ℚ)), (calcLoop pop ss cum u fp).1.length = ss.length
  | [], _, _, _ => rfl
  | s :: rest, cum, u, fp => by
    dsimp only [calcLoop]
    simp [calcLoop_length pop rest]

theorem calcLoop_map_config (pop : ℤ) : ∀ (ss : List LotteryStage) (cum : ℤ) (u : ℚ)
    (fp : List (String × ℚ)), (calcLoop pop ss cum u fp).1.map configOf = ss.map configOf
  | [], _, _, _ => rfl
  | s :: rest, cum, u, fp => by
    dsimp only [calcLoop]
    simp [stepStage_config, calcLoop_map_config pop rest]

theorem calcLoop_map_seatFields (pop : ℤ) : ∀ (ss : List LotteryStage) (cum : ℤ) (u : ℚ)
    (fp : List (String × ℚ)), (calcLoop pop ss cum u fp).1.map seatFieldsOf = ss.map seatFieldsOf
  | [], _, _, _ => rfl
  | s :: rest, cum, u, fp => by
    dsimp only [calcLoop]
    simp [stepStage_seatFields, calcLoop_map_seatFields pop rest]

theorem calcLoop_mem (pop : ℤ) : ∀ (ss : List LotteryStage) (cum : ℤ) (u : ℚ)
    (fp : List (String × ℚ)) (t : LotteryStage), t ∈ (calcLoop pop ss cum u fp).1 →
    ∃ c s, s ∈ ss ∧ t = stepStage pop c s
  | [], _, _, _, t, ht => by
    dsimp only [calcLoop] at ht
    simp at ht
  | s :: rest, cum, u, fp, t, ht => by
    dsimp only [calcLoop] at ht
    rcases List.mem_cons.mp ht with h | h
    · exact ⟨cum, s, List.mem_cons_self s rest, h⟩
    · obtain ⟨c, s₀, hs₀, hts⟩ := calcLoop_mem pop rest _ _ _ t h
      exact ⟨c, s₀, List.mem_cons_of_mem s hs₀, hts⟩

theorem calcLoop_getD (pop : ℤ) : ∀ (ss : List LotteryStage) (cum : ℤ) (u : ℚ)
    (fp : List (String × ℚ)) (j : ℕ), j < ss.length →
    (calcLoop pop ss cum u fp).1.getD j dummyStage =
      stepStage pop
        (cum + (((calcLoop pop ss cum u fp).1.take j).map
          (fun t => t.winners_in_stage)).sum)
        (ss.getD j dummyStage)
  | [], _, _, _, j, hj => by simp at hj
  | s :: rest, cum, u, fp, 0, _ => by
    dsimp only [calcLoop]
    simp
  | s :: rest, cum, u, fp, j + 1, hj => by
    dsimp only [calcLoop]
    simp only [List.getD_cons_succ, List.take_succ_cons, List.map_cons, List.sum_cons]
    rw [calcLoop_getD pop rest (cum + (stepStage pop cum s).winners_in_stage) _ _ j
      (by simpa using hj)]
    congr 1
    ring

theorem calcLoop_fp (pop : ℤ) : ∀ (ss : List LotteryStage) (cum : ℤ) (u : ℚ)
    (fp : List (String × ℚ)),
    (ss.map (fun s => s.name ++ "で当選")).Nodup →
    (∀ s ∈ ss, (s.name ++ "で当選") ∉ fp.map Prod.fst) →
    (calcLoop pop ss cum u fp).2.1.map Prod.fst =
      fp.map Prod.fst ++ ss.map (fun s => s.name ++ "で当選")
    ∧ ((calcLoop pop ss cum u fp).2.1.map Prod.snd).sum =
      (fp.map Prod.snd).sum + u - (calcLoop pop ss cum u fp).2.2
  | [], cum, u, fp => by
    intro _ _
    dsimp only [calcLoop]
    constructor
    · simp
    · ring
  | s :: rest, cum, u, fp => by
    intro hnod hdisj
    have hk : (s.name ++ "で当選") ∉ fp.map Prod.fst := hdisj s (List.mem_cons_self s rest)
    have hnodc : (∀ x ∈ rest, ¬ (x.name ++ "で当選" = s.name ++ "で当選"))
        ∧ (rest.map (fun t => t.name ++ "で当選")).Nodup := by simpa using hnod
    dsimp only [calcLoop]
    rw [dictInsert_of_not_mem hk]
    have hdisj' : ∀ t ∈ rest, (t.name ++ "で当選") ∉
        ((fp ++ [(s.name ++ "で当選",
          u * (stepStage pop cum s).conditional_win_prob_in_stage)]).map Prod.fst) := by
      intro t ht hmem
      simp only [List.map_append, List.mem_append] at hmem
      rcases hmem with h | h
      · exact hdisj t (List.mem_cons_of_mem s ht) h
      · simp only [List.map_cons, List.map_nil, List.mem_singleton] at h
        exact hnodc.1 t ht h
    obtain ⟨hkeys, hsum⟩ := calcLoop_fp pop rest
      (cum + (stepStage pop cum s).winners_in_stage)
      (u * (1 - (stepStage pop cum s).conditional_win_prob_in_stage))
      (fp ++ [(s.name ++ "で当選",
        u * (stepStage pop cum s).conditional_win_prob_in_stage)]) hnodc.2 hdisj'
    constructor
    · rw [hkeys]
      simp
    · rw [hsum]
      simp only [List.map_append, List.sum_append, List.map_cons, List.map_nil,
        List.sum_cons, List.sum_nil]
      ring

theorem calcLoop_bounds (pop : ℤ) : ∀ (ss : List LotteryStage) (cum : ℤ) (u : ℚ)
    (fp : List (String × ℚ)),
    0 ≤ u → u ≤ 1 → (∀ s ∈ ss, 0 ≤ s.effective_seats_for_new_winners) →
    (∀ p ∈ fp, 0 ≤ p.2 ∧ p.2 ≤ 1) →
    (∀ p ∈ (calcLoop pop ss cum u fp).2.1, 0 ≤ p.2 ∧ p.2 ≤ 1)
    ∧ 0 ≤ (calcLoop pop ss cum u fp).2.2 ∧ (calcLoop pop ss cum u fp).2.2 ≤ 1
  | [], cum, u, fp => by
    intro hu0 hu1 _ hfp
    dsimp only [calcLoop]
    exact ⟨hfp, hu0, hu1⟩
  | s :: rest, cum, u, fp => by
    intro hu0 hu1 hss hfp
    have he : 0 ≤ s.effective_seats_for_new_winners := hss s (List.mem_cons_self s rest)
    obtain ⟨_, _, _, hc0, hc1⟩ := stepStage_bounds pop cum s he
    have hv0 : 0 ≤ u * (stepStage pop cum s).conditional_win_prob_in_stage :=
      mul_nonneg hu0 hc0
    have hv1 : u * (stepStage pop cum s).conditional_win_prob_in_stage ≤ 1 := by
      nlinarith
    have hu'0 : 0 ≤ u * (1 - (stepStage pop cum s).conditional_win_prob_in_stage) :=
      mul_nonneg hu0 (by linarith)
    have hu'1 : u * (1 - (stepStage pop cum s).conditional_win_prob_in_stage) ≤ 1 := by
      nlinarith
    dsimp only [calcLoop]
    exact calcLoop_bounds pop rest _ _ _ hu'0 hu'1
      (fun t ht => hss t (List.mem_cons_of_mem s ht))
      (@dictInsert_forall (fun x => 0 ≤ x ∧ x ≤ 1) _ _ ⟨hv0, hv1⟩ _ hfp)

/-! ### Structural lemmas about seat allocation -/


theorem allocStages_length (total W : ℚ) : ∀ (ss : List LotteryStage) (running : ℤ),
    (allocStages total W ss running).length = ss.length
  | [], _ => rfl
  | s :: rest, running => by
    dsimp only [allocStages]
    simp [allocStages_length total W rest]

theorem allocStages_map_config (total W : ℚ) : ∀ (ss : List LotteryStage) (running : ℤ),
    (allocStages total W ss running).map configOf = ss.map configOf
  | [], _ => rfl
  | s :: rest, running => by
    dsimp only [allocStages]
    simp [configOf, allocStages_map_config total W rest]

theorem allocStages_single (total W : ℚ) (s : LotteryStage) (running : ℤ) :
    allocStages total W [s] running =
      [{ s with allocated_seats_original := pyRound (total - (running : ℚ)) }] := by
  dsimp only [allocStages]
  simp

theorem allocStages_cons_ne (total W : ℚ) (s a : LotteryStage) (l : List LotteryStage)
    (running : ℤ) :
    allocStages total W (s :: a :: l) running =
      { s with allocated_seats_original := pyRound (total * (s.weight / W)) } ::
        allocStages total W (a :: l) (running + pyRound (total * (s.weight / W))) := by
  dsimp only [allocStages]
  simp

theorem allocStages_getD (total W : ℚ) : ∀ (ss : List LotteryStage) (running : ℤ) (j : ℕ),
    j < ss.length →
    (allocStages total W ss running).getD j dummyStage =
      { ss.getD j dummyStage with allocated_seats_original :=
          (if j + 1 < ss.length then pyRound (total * ((ss.getD j dummyStage).weight / W))
           else pyRound (total - (((running + interSum total W (ss.take j) : ℤ)) : ℚ))) }
  | [], _, j, hj => by simp at hj
  | [s], running, 0, _ => by
    rw [allocStages_single]
    simp [interSum]
  | s :: a :: l, running, 0, _ => by
    rw [allocStages_cons_ne]
    simp only [List.getD_cons_zero, List.length_cons]
    rw [if_pos (by omega)]
  | [s], running, j + 1, hj => by simp at hj
  | s :: a :: l, running, j + 1, hj => by
    have hjr : j < (a :: l).length := by simpa using hj
    rw [allocStages_cons_ne]
    simp only [List.getD_cons_succ]
    rw [allocStages_getD total W (a :: l) (running + pyRound (total * (s.weight / W))) j hjr]
    by_cases hc : j + 1 < (a :: l).length
    · rw [if_pos hc, if_pos (by simp only [List.length_cons] at hc ⊢; omega)]
    · rw [if_neg hc, if_neg (by simp only [List.length_cons] at hc ⊢; omega)]
      have harg : ((running + pyRound (total * (s.weight / W)))
            + interSum total W ((a :: l).take j) : ℤ)
          = (running + interSum total W ((s :: a :: l).take (j + 1)) : ℤ) := by
        simp only [List.take_succ_cons, interSum, List.map_cons, List.sum_cons]
        ring
      rw [harg]

theorem allocStages_take_map (total W : ℚ) : ∀ (ss : List LotteryStage) (running : ℤ) (k : ℕ),
    k + 1 ≤ ss.length →
    ((allocStages total W ss running).take k).map (fun t => t.allocated_seats_original)
      = (ss.take k).map (fun s => pyRound (total * (s.weight / W)))
  | _, _, 0, _ => by simp
  | [], _, k + 1, hk => by simp at hk
  | [s], _, k + 1, hk => by
    simp only [List.length_cons, List.length_nil] at hk
    omega
  | s :: a :: l, running, k + 1, hk => by
    rw [allocStages_cons_ne]
    simp only [List.take_succ_cons, List.map_cons]
    rw [allocStages_take_map total W (a :: l) (running + pyRound (total * (s.weight / W))) k
      (by simpa using hk)]

theorem allocStages_sum (total W : ℚ) (hfr : Int.fract total ≠ 1/2) :
    ∀ (ss : List LotteryStage) (running : ℤ), ss ≠ [] →
    ((allocStages total W ss running).map (fun t => t.allocated_seats_original)).sum
      = pyRound total - running
  | [], _, h => absurd rfl h
  | [s], running, _ => by
    rw [allocStages_single]
    simp only [List.map_cons, List.map_nil, List.sum_cons, List.sum_nil, add_zero]
    exact pyRound_sub_intCast hfr running
  | s :: t :: rest, running, _ => by
    rw [allocStages_cons_ne]
    simp only [List.map_cons, List.sum_cons]
    have := allocStages_sum total W hfr (t :: rest)
      (running + pyRound (total * (s.weight / W))) (List.cons_ne_nil t rest)
    simp only [List.map_cons, List.sum_cons] at this
    omega

theorem effectiveStages_length (rate : ℚ) (ss : List LotteryStage) :
    (effectiveStages rate ss).length = ss.length := by
  simp [effectiveStages]

theorem effectiveStages_getD (rate : ℚ) (ss : List LotteryStage) (j : ℕ) (hj : j < ss.length) :
    (effectiveStages rate ss).getD j dummyStage =
      { ss.getD j dummyStage with effective_seats_for_new_winners :=
          (pyRound (((ss.getD j dummyStage).allocated_seats_original : ℚ) * (1 - rate))) } :=
  getD_map_lt _ dummyStage dummyStage ss j hj

theorem effectiveStages_map_config (rate : ℚ) (ss : List LotteryStage) :
    (effectiveStages rate ss).map configOf = ss.map configOf := by
  simp only [effectiveStages, List.map_map]
  rfl

theorem effectiveStages_map_alloc (rate : ℚ) (ss : List LotteryStage) :
    (effectiveStages rate ss).map (fun t => t.allocated_seats_original)
      = ss.map (fun t => t.allocated_seats_original) := by
  simp only [effectiveStages, List.map_map]
  rfl

theorem effectiveStages_mem {rate : ℚ} {ss : List LotteryStage} {t : LotteryStage}
    (ht : t ∈ effectiveStages rate ss) :
    ∃ s ∈ ss, t = { s with effective_seats_for_new_winners :=
      (pyRound ((s.allocated_seats_original : ℚ) * (1 - rate))) } := by
  obtain ⟨s, hs, hst⟩ := List.mem_map.mp ht
  exact ⟨s, hs, hst.symm⟩

/-! ### Inversion lemmas for the fallible operations -/

theorem mkSimulator_ok {att numEv : ℤ} {targets : List (String × ℤ)} {pop : ℤ}
    {dup : DupConfig} {sim : LotterySimulator}
    (h : mkSimulator att numEv targets pop dup = Except.ok sim) :
    0 < numEv ∧ 0 < (targets.map Prod.snd).sum ∧ sim.stages = [] := by
  unfold mkSimulator at h
  split_ifs at h with h1
  dsimp only at h
  by_cases hs : (targets.map Prod.snd).sum ≤ 0
  · rw [if_pos hs] at h
    simp at h
  · rw [if_neg hs] at h
    have hinj := Except.ok.inj h
    refine ⟨by omega, by omega, ?_⟩
    rw [← hinj]

theorem add_stage_ok {sim : LotterySimulator} {name : String} {frac : ℚ} {addl : ℤ}
    {w : ℚ} {sim' : LotterySimulator}
    (h : add_stage sim name frac addl w = Except.ok sim') :
    (0 ≤ frac ∧ frac ≤ 1) ∧ 0 ≤ addl ∧ 0 < w ∧
    sim' = { sim with stages := sim.stages ++ [mkStage name frac addl w],
                      total_weight := sim.total_weight + w } := by
  unfold add_stage add_stage_proc at h
  split_ifs at h with h1 h2 h3
  dsimp only at h
  exact ⟨h1, by omega, by linarith, (Except.ok.inj h).symm⟩

theorem add_stage_error_cases {sim : LotterySimulator} {name : String} {frac : ℚ}
    {addl : ℤ} {w : ℚ} (hc : ¬ (0 ≤ frac ∧ frac ≤ 1) ∨ addl < 0 ∨ w ≤ 0) :
    ∃ pre post, add_stage sim name frac addl w = Except.error (pre ++ name ++ post) := by
  unfold add_stage add_stage_proc
  by_cases hf : ¬ (0 ≤ frac ∧ frac ≤ 1)
  · rw [if_pos hf]
    exact ⟨"ステージ「", "」のコアファン申込割合は0.0から1.0の間である必要があります。", rfl⟩
  · rw [if_neg hf]
    by_cases ha : addl < 0
    · rw [if_pos ha]
      exact ⟨"ステージ「", "」の追加申込者数は0以上である必要があります。", rfl⟩
    · rw [if_neg ha]
      by_cases hw : w ≤ 0
      · rw [if_pos hw]
        exact ⟨"ステージ「", "」の比重は0より大きい値である必要があります。", rfl⟩
      · rcases hc with h | h | h
        · exact absurd h hf
        · exact absurd h ha
        · exact absurd h hw

theorem add_stage_ok_cases {sim : LotterySimulator} {name : String} {frac : ℚ}
    {addl : ℤ} {w : ℚ} (hf : 0 ≤ frac ∧ frac ≤ 1) (ha : 0 ≤ addl) (hw : 0 < w) :
    add_stage sim name frac addl w =
      Except.ok { sim with stages := sim.stages ++ [mkStage name frac addl w],
                           total_weight := sim.total_weight + w } := by
  unfold add_stage add_stage_proc
  rw [if_neg (not_not_intro hf), if_neg (by omega), if_neg (by linarith)]

theorem mkSimulator_error_cases {att numEv : ℤ} {targets : List (String × ℤ)} {pop : ℤ}
    {dup : DupConfig} (hc : numEv ≤ 0 ∨ (targets.map Prod.snd).sum ≤ 0) :
    ∃ e, mkSimulator att numEv targets pop dup = Except.error e := by
  unfold mkSimulator
  by_cases h1 : numEv ≤ 0
  · rw [if_pos h1]
    exact ⟨_, rfl⟩
  · rw [if_neg h1]
    dsimp only
    rcases hc with h | h
    · exact absurd h h1
    · rw [if_pos h]
      exact ⟨_, rfl⟩

theorem mkSimulator_ok_cases {att numEv : ℤ} {targets : List (String × ℤ)} {pop : ℤ}
    {dup : DupConfig} (h1 : ¬ numEv ≤ 0) (h2 : ¬ (targets.map Prod.snd).sum ≤ 0) :
    ∃ s, mkSimulator att numEv targets pop dup = Except.ok s := by
  unfold mkSimulator
  rw [if_neg h1]
  dsimp only
  rw [if_neg h2]
  exact ⟨_, rfl⟩

theorem reductionRate_ok {cfg : DupConfig} {rate : ℚ}
    (h : reductionRate cfg = Except.ok rate) : 0 ≤ rate ∧ rate ≤ 1 := by
  unfold reductionRate at h
  by_cases h1 : cfg.typeKey = some "seat_reduction"
  · rw [if_pos h1] at h
    dsimp only at h
    by_cases h2 : ¬ (0 ≤ cfg.rateKey.getD 0 ∧ cfg.rateKey.getD 0 ≤ 1)
    · rw [if_pos h2] at h
      simp at h
    · rw [if_neg h2] at h
      have hinj := Except.ok.inj h
      rw [← hinj]
      exact not_not.mp h2
  · rw [if_neg h1] at h
    have hinj := Except.ok.inj h
    rw [← hinj]
    norm_num

theorem allocate_seats_ok {sim : LotterySimulator} {ss : List LotteryStage}
    (hne : sim.stages ≠ []) (h : allocate_seats sim = Except.ok ss) :
    ∃ rate, reductionRate sim.duplicate_win_config = Except.ok rate ∧ 0 ≤ rate ∧ rate ≤ 1 ∧
      ss = effectiveStages rate
        (allocStages sim.total_seats_for_user_events sim.total_weight sim.stages 0) := by
  unfold allocate_seats at h
  split_ifs at h with h1 h2
  · exact absurd (List.isEmpty_iff.mp h2) hne
  · cases hr : reductionRate sim.duplicate_win_config with
    | error e =>
      rw [hr] at h
      dsimp only at h
      simp at h
    | ok rate =>
      rw [hr] at h
      dsimp only at h
      obtain ⟨hr0, hr1⟩ := reductionRate_ok hr
      exact ⟨rate, rfl, hr0, hr1, (Except.ok.inj h).symm⟩

theorem calculate_nil {sim : LotterySimulator} (hnil : sim.stages = []) :
    calculate_probabilities sim =
      Except.ok ({ sim with final_probabilities := [("全選考で落選", (1 : ℚ))] },
        [("全選考で落選", (1 : ℚ))]) := by
  unfold calculate_probabilities
  rw [if_pos (by simp [hnil])]

theorem calculate_ok_of_ne {sim sim' : LotterySimulator} {probs : List (String × ℚ)}
    (hne : sim.stages ≠ []) (h : calculate_probabilities sim = Except.ok (sim', probs)) :
    ∃ allocated, allocate_seats sim = Except.ok allocated ∧
      sim' = { sim with
        stages := (calcLoop sim.core_fan_total_population allocated 0 1 []).1,
        results_per_stage_raw := (calcLoop sim.core_fan_total_population allocated 0 1 []).1,
        final_probabilities := dictInsert
          (calcLoop sim.core_fan_total_population allocated 0 1 []).2.1 "全選考で落選"
          (calcLoop sim.core_fan_total_population allocated 0 1 []).2.2 }
      ∧ probs = dictInsert
          (calcLoop sim.core_fan_total_population allocated 0 1 []).2.1 "全選考で落選"
          (calcLoop sim.core_fan_total_population allocated 0 1 []).2.2 := by
  unfold calculate_probabilities at h
  rw [if_neg (by simpa using hne)] at h
  cases ha : allocate_seats sim with
  | error e =>
    rw [ha] at h
    simp at h
  | ok allocated =>
    rw [ha] at h
    have hinj := Except.ok.inj h
    refine ⟨allocated, rfl, ?_, ?_⟩
    · exact (congrArg Prod.fst hinj).symm
    · exact (congrArg Prod.snd hinj).symm

/-! ### Invariants of reachable simulator states -/

theorem reachable_stages {sim : LotterySimulator} (h : Reachable sim) :
    ∀ s ∈ sim.stages, (0 ≤ s.applicant_core_fan_frac ∧ s.applicant_core_fan_frac ≤ 1)
      ∧ 0 ≤ s.additional_applicants ∧ 0 < s.weight := by
  induction h with
  | init att numEv targets pop dup sim0 hmk =>
    obtain ⟨_, _, hrec⟩ := mkSimulator_ok hmk
    intro s hs
    rw [hrec] at hs
    simp at hs
  | step sim0 nm f a w sim1 hre hadd ih =>
    obtain ⟨hf, ha, hw, hrec⟩ := add_stage_ok hadd
    intro s hs
    rw [hrec] at hs
    dsimp only at hs
    rcases List.mem_append.mp hs with hmem | hmem
    · exact ih s hmem
    · have hseq : s = mkStage nm f a w := List.mem_singleton.mp hmem
      rw [hseq]
      exact ⟨hf, ha, hw⟩

/-! ### Remaining small helpers -/

theorem stepStage_name (pop cum : ℤ) (s : LotteryStage) :
    (stepStage pop cum s).name = s.name :=
  congrArg (fun c => c.1) (stepStage_config pop cum s)

theorem stepStage_frac (pop cum : ℤ) (s : LotteryStage) :
    (stepStage pop cum s).applicant_core_fan_frac = s.applicant_core_fan_frac :=
  congrArg (fun c => c.2.1) (stepStage_config pop cum s)

theorem stepStage_addl (pop cum : ℤ) (s : LotteryStage) :
    (stepStage pop cum s).additional_applicants = s.additional_applicants :=
  congrArg (fun c => c.2.2.1) (stepStage_config pop cum s)

theorem getD_set_self {α : Type} (d : α) :
    ∀ (l : List α) (i : ℕ) (a : α), i < l.length → (l.set i a).getD i d = a
  | [], i, a, hi => by simp at hi
  | x :: l, 0, a, _ => rfl
  | x :: l, i + 1, a, hi => by
    simp only [List.set_cons_succ, List.getD_cons_succ]
    exact getD_set_self d l i a (by simpa using hi)

theorem take_set {α : Type} : ∀ (l : List α) (i : ℕ) (a : α), (l.set i a).take i = l.take i
  | [], _, _ => by simp
  | x :: l, 0, a => by simp
  | x :: l, i + 1, a => by
    simp only [List.set_cons_succ, List.take_succ_cons]
    rw [take_set l i a]

/-- Reachability of the concrete scenario-B simulator. -/
theorem reachable_simB2 : Reachable simB2 := by
  have h0 : mkSimulator 10000 10 [("test", 1)] 1000 dupB = Except.ok simB0 := by rfl
  have h1 : add_stage simB0 "S1" (1/2) 0 1 = Except.ok simB1 := by rfl
  have h2 : add_stage simB1 "S2" 1 0 1 = Except.ok simB2 := by rfl
  exact Reachable.step _ _ _ _ _ _
    (Reachable.step _ _ _ _ _ _ (Reachable.init _ _ _ _ _ _ h0) h1) h2

/-- Reachability of the negative-seat scenario simulator. -/
theorem reachable_simN4 : Reachable simN4 := by
  have h0 : mkSimulator 2 1 [("t", 1)] 10 dupNone = Except.ok simN0 := by rfl
  have h1 : add_stage simN0 "S1" 1 0 3 = Except.ok simN1 := by rfl
  have h2 : add_stage simN1 "S2" 1 0 3 = Except.ok simN2 := by rfl
  have h3 : add_stage simN2 "S3" 1 0 3 = Except.ok simN3 := by rfl
  have h4 : add_stage simN3 "S4" 1 0 1 = Except.ok simN4 := by rfl
  exact Reachable.step _ _ _ _ _ _ (Reachable.step _ _ _ _ _ _
    (Reachable.step _ _ _ _ _ _ (Reachable.step _ _ _ _ _ _
      (Reachable.init _ _ _ _ _ _ h0) h1) h2) h3) h4

/-! ### The claims -/

/-- Claim C7: for every validly constructed simulator with no stage added,
`calculate_probabilities` returns exactly the single-entry mapping from the
no-win sentinel key to 1.0; the simulator is otherwise untouched (in
particular seat allocation is never run — the stage list and the raw results
list are returned unchanged). -/
theorem claim_C7 (att numEv : ℤ) (targets : List (String × ℤ)) (pop : ℤ)
    (dup : DupConfig) (sim : LotterySimulator)
    (h : mkSimulator att numEv targets pop dup = Except.ok sim) :
    calculate_probabilities sim =
      Except.ok ({ sim with final_probabilities := [("全選考で落選", (1 : ℚ))] },
        [("全選考で落選", (1 : ℚ))]) := by
  obtain ⟨_, _, hnil⟩ := mkSimulator_ok h
  exact calculate_nil hnil

/-- Witness for C7 at the concrete scenario-B construction. -/
theorem claim_C7_witness :
    calculate_probabilities simB0 =
      Except.ok ({ simB0 with final_probabilities := [("全選考で落選", (1 : ℚ))] },
        [("全選考で落選", (1 : ℚ))]) :=
  claim_C7 10000 10 [("test", 1)] 1000 dupB simB0 (by rfl)

/-- Claim C9: the constructor raises exactly when `numEvents ≤ 0` or the target
event counts sum to ≤ 0, and `add_stage` raises — with a message containing the
stage name — exactly when the core-fan ratio is outside [0,1], the additional
applicants are negative, or the weight is non-positive; no other input to these
two operations raises. -/
theorem claim_C9 (att numEv : ℤ) (targets : List (String × ℤ)) (pop : ℤ)
    (dup : DupConfig) (sim : LotterySimulator) (name : String) (frac : ℚ)
    (addl : ℤ) (w : ℚ) :
    ((∃ e, mkSimulator att numEv targets pop dup = Except.error e)
      ↔ (numEv ≤ 0 ∨ (targets.map Prod.snd).sum ≤ 0))
    ∧ ((∃ e, add_stage sim name frac addl w = Except.error e
          ∧ ∃ pre post, e = pre ++ name ++ post)
      ↔ (¬ (0 ≤ frac ∧ frac ≤ 1) ∨ addl < 0 ∨ w ≤ 0)) := by
  constructor
  · constructor
    · rintro ⟨e, he⟩
      by_contra hc
      push_neg at hc
      obtain ⟨s, hok⟩ := @mkSimulator_ok_cases att numEv targets pop dup (by omega) (by omega)
      rw [hok] at he
      simp at he
    · intro hc
      exact mkSimulator_error_cases hc
  · constructor
    · rintro ⟨e, he, _⟩
      by_contra hc
      push_neg at hc
      rw [add_stage_ok_cases hc.1 (by omega) (by linarith)] at he
      simp at he
    · intro hc
      obtain ⟨pre, post, he⟩ := add_stage_error_cases hc
      exact ⟨pre ++ name ++ post, he, pre, post, rfl⟩

/-- Witness for C9: `numEvents = 0` raises, and `add_stage` with ratio 1.5
raises with the stage name in the message. -/
theorem claim_C9_witness :
    (∃ e, mkSimulator 10000 0 [("test", 1)] 1000 dupNone = Except.error e)
    ∧ (∃ e, add_stage simB0 "X" (3/2) 0 1 = Except.error e
        ∧ ∃ pre post, e = pre ++ "X" ++ post) := by
  constructor
  · exact (claim_C9 10000 0 [("test", 1)] 1000 dupNone simB0 "X" (3/2) 0 1).1.mpr
      (Or.inl (by norm_num))
  · exact (claim_C9 10000 0 [("test", 1)] 1000 dupNone simB0 "X" (3/2) 0 1).2.mpr
      (Or.inl (by norm_num))

/-- Claim C10: whenever `add_stage` raises, the simulator state at the point of
the raise is exactly the state before the call — all validation precedes any
mutation. -/
theorem claim_C10 (sim : LotterySimulator) (name : String) (frac : ℚ) (addl : ℤ)
    (w : ℚ) (msg : String)
    (h : (add_stage_proc sim name frac addl w).2 = some msg) :
    (add_stage_proc sim name frac addl w).1 = sim := by
  unfold add_stage_proc at h ⊢
  split_ifs at h ⊢ <;> first | rfl | simp at h

/-- Witness for C10: an out-of-range ratio leaves the scenario-B simulator
untouched. -/
theorem claim_C10_witness : (add_stage_proc simB2 "X" 2 0 1).1 = simB2 :=
  claim_C10 simB2 "X" 2 0 1
    ("ステージ「" ++ "X" ++ "」のコアファン申込割合は0.0から1.0の間である必要があります。") (by rfl)

/-- Claim C1 (amended): for every validly constructed simulator, any sequence
of successful `add_stage` calls **whose stage names are pairwise distinct**,
and a successful `calculate_probabilities()`, the values of the returned
`final_probabilities` sum to 1.0 within 1e-6 (in the exact-rational model the
sum is exactly 1).  The distinct-name hypothesis is forced: the result is a
dict keyed by `name + "で当選"`, so stages sharing a name overwrite each
other's entries (see the counterexample). -/
theorem claim_C1 (sim sim' : LotterySimulator) (probs : List (String × ℚ))
    (hre : Reachable sim)
    (hnames : (sim.stages.map (fun s => s.name)).Nodup)
    (h : calculate_probabilities sim = Except.ok (sim', probs)) :
    |((probs.map Prod.snd).sum) - 1| ≤ 1 / 1000000 := by
  by_cases hnil : sim.stages = []
  · rw [calculate_nil hnil] at h
    have hp : probs = [("全選考で落選", (1 : ℚ))] :=
      (congrArg Prod.snd (Except.ok.inj h)).symm
    rw [hp]
    norm_num
  · obtain ⟨allocated, ha, hsim', hprobs⟩ := calculate_ok_of_ne hnil h
    obtain ⟨rate, hrr, hr0, hr1, hss⟩ := allocate_seats_ok hnil ha
    have hcfg : allocated.map configOf = sim.stages.map configOf := by
      rw [hss, effectiveStages_map_config, allocStages_map_config]
    have hnamesA : allocated.map (fun s => s.name) = sim.stages.map (fun s => s.name) := by
      have h2 := congrArg (List.map (fun c : String × ℚ × ℤ × ℚ => c.1)) hcfg
      simpa [List.map_map, configOf] using h2
    have hkeys' : (allocated.map (fun s => s.name ++ "で当選")).Nodup := by
      have he : allocated.map (fun s => s.name ++ "で当選")
          = (allocated.map (fun s => s.name)).map (fun n => n ++ "で当選") := by
        simp [List.map_map]
      rw [he, hnamesA]
      exact List.Nodup.map (fun a b hab => string_append_right_cancel hab) hnames
    obtain ⟨hkeys, hsum⟩ :=
      calcLoop_fp sim.core_fan_total_population allocated 0 1 [] hkeys' (by simp)
    have hnw : "全選考で落選" ∉
        (calcLoop sim.core_fan_total_population allocated 0 1 []).2.1.map Prod.fst := by
      rw [hkeys]
      simp only [List.map_nil, List.nil_append]
      intro hmem
      obtain ⟨s, _, hs⟩ := List.mem_map.mp hmem
      exact winKey_ne_nowin s.name hs
    rw [hprobs, dictInsert_of_not_mem hnw, List.map_append, List.sum_append, hsum]
    simp only [List.map_nil, List.sum_nil, List.map_cons, List.sum_cons]
    have harith :
        (0 + 1 - (calcLoop sim.core_fan_total_population allocated 0 1 []).2.2
          + ((calcLoop sim.core_fan_total_population allocated 0 1 []).2.2 + 0)) - 1
          = 0 := by ring
    rw [harith]
    norm_num

/-- Counterexample to claim C1 as literally stated: the same construction as
scenario B but with both stages named `"S"` is a valid simulator built by
successful `add_stage` calls, yet the second stage's dict entry overwrites the
first's, and the returned values sum to 1/5, not 1 (off by 4/5 > 1e-6). -/
theorem claim_C1_cex :
    ((resD.2.map Prod.snd).sum = 1/5)
    ∧ ¬ (|((resD.2.map Prod.snd).sum) - 1| ≤ 1 / 1000000) := by
  constructor
  · decide
  · decide

/-- Witness for (amended) C1 at scenario B. -/
theorem claim_C1_witness : |(((resB.2).map Prod.snd).sum) - 1| ≤ 1 / 1000000 :=
  claim_C1 simB2 resB.1 resB.2 reachable_simB2 (by decide) (by rfl)

/-- Claim C2 (amended): for every validly constructed simulator, any sequence
of successful `add_stage` calls, and a successful `calculate_probabilities()`,
**provided seat allocation assigned a nonnegative seat count to every stage**,
every value stored in `final_probabilities` lies in [0,1].  The nonnegativity
hypothesis is forced: the last stage's rounded remainder can be negative (see
the counterexample), which drives a conditional probability below 0. -/
theorem claim_C2 (sim sim' : LotterySimulator) (probs : List (String × ℚ))
    (hre : Reachable sim)
    (hnn : ∀ s ∈ sim'.stages, 0 ≤ s.allocated_seats_original)
    (h : calculate_probabilities sim = Except.ok (sim', probs)) :
    ∀ p ∈ probs, 0 ≤ p.2 ∧ p.2 ≤ 1 := by
  by_cases hnil : sim.stages = []
  · rw [calculate_nil hnil] at h
    have hp : probs = [("全選考で落選", (1 : ℚ))] :=
      (congrArg Prod.snd (Except.ok.inj h)).symm
    rw [hp]
    intro p hp
    rw [List.mem_singleton.mp hp]
    norm_num
  · obtain ⟨allocated, ha, hsim', hprobs⟩ := calculate_ok_of_ne hnil h
    obtain ⟨rate, hrr, hr0, hr1, hss⟩ := allocate_seats_ok hnil ha
    have hstages' : sim'.stages =
        (calcLoop sim.core_fan_total_population allocated 0 1 []).1 := by
      rw [hsim']
    have hmapseat :
        (calcLoop sim.core_fan_total_population allocated 0 1 []).1.map seatFieldsOf
          = allocated.map seatFieldsOf :=
      calcLoop_map_seatFields sim.core_fan_total_population allocated 0 1 []
    have hnnA : ∀ s ∈ allocated, 0 ≤ s.allocated_seats_original := by
      intro s hs
      obtain ⟨t, ht, hts⟩ := mem_of_map_eq hmapseat.symm hs
      have halloc : t.allocated_seats_original = s.allocated_seats_original :=
        congrArg Prod.fst hts
      have ht' : t ∈ sim'.stages := by
        rw [hstages']
        exact ht
      have := hnn t ht'
      omega
    have heffA : ∀ s ∈ allocated, 0 ≤ s.effective_seats_for_new_winners := by
      intro s hs
      have hsA := hs
      rw [hss] at hsA
      obtain ⟨s₀, hs₀, hsdef⟩ := effectiveStages_mem hsA
      have halloc : s.allocated_seats_original = s₀.allocated_seats_original := by
        rw [hsdef]
      have h0 : (0 : ℤ) ≤ s₀.allocated_seats_original := by
        have := hnnA s hs
        omega
      rw [hsdef]
      apply pyRound_nonneg
      apply mul_nonneg
      · exact_mod_cast h0
      · linarith
    obtain ⟨hvals, hu0, hu1⟩ :=
      calcLoop_bounds sim.core_fan_total_population allocated 0 1 []
        (by norm_num) (by norm_num) heffA (by simp)
    rw [hprobs]
    exact @dictInsert_forall (fun x => 0 ≤ x ∧ x ≤ 1) _ _ ⟨hu0, hu1⟩ _ hvals

/-- Counterexample to claim C2 as literally stated: the valid configuration
`LotterySimulator(2, 1, {"t": 1}, 10)` with stages of weights 3, 3, 3, 1 (all
arguments within the documented domains) yields a final probability of -1/10
for stage "S4": rounding overshoot gives the last stage -1 seats, so its
winners count is -1 and its conditional probability is negative. -/
theorem claim_C2_cex : ∃ p ∈ resN.2, ¬ (0 ≤ p.2 ∧ p.2 ≤ 1) := by
  decide

/-- Witness for (amended) C2 at scenario B, evaluated at its first entry. -/
theorem claim_C2_witness :
    0 ≤ (resB.2.getD 0 ("", 0)).2 ∧ (resB.2.getD 0 ("", 0)).2 ≤ 1 :=
  claim_C2 simB2 resB.1 resB.2 reachable_simB2 (by decide) (by rfl)
    (resB.2.getD 0 ("", 0)) (by decide)

/-- Claim C3 (amended): for every validly constructed simulator (including the
data-model constraint `coreFanPopulation ≥ 0`), any sequence of successful
`add_stage` calls, and a successful `calculate_probabilities()`, **provided
seat allocation assigned a nonnegative seat count to every stage**, every
stage's computed fields satisfy the documented invariants: 0 ≤ effectiveSeats
≤ allocatedSeats, premiseApplicants ≥ 0, actualApplicants ≥ 0, 0 ≤ winners ≤
min(effectiveSeats, actualApplicants), and conditionalWinProb ∈ [0,1].  The
nonnegative-allocation hypothesis is forced by the counterexample. -/
theorem claim_C3 (sim sim' : LotterySimulator) (probs : List (String × ℚ))
    (hre : Reachable sim)
    (hpop : 0 ≤ sim.core_fan_total_population)
    (hnn : ∀ s ∈ sim'.stages, 0 ≤ s.allocated_seats_original)
    (h : calculate_probabilities sim = Except.ok (sim', probs)) :
    ∀ t ∈ sim'.stages,
      0 ≤ t.allocated_seats_original
      ∧ 0 ≤ t.effective_seats_for_new_winners
      ∧ t.effective_seats_for_new_winners ≤ t.allocated_seats_original
      ∧ 0 ≤ t.premise_applicants_for_stage_type
      ∧ 0 ≤ t.actual_applicants_for_stage
      ∧ 0 ≤ t.winners_in_stage
      ∧ t.winners_in_stage ≤
          min t.effective_seats_for_new_winners t.actual_applicants_for_stage
      ∧ 0 ≤ t.conditional_win_prob_in_stage
      ∧ t.conditional_win_prob_in_stage ≤ 1 := by
  by_cases hnil : sim.stages = []
  · rw [calculate_nil hnil] at h
    have hs' : sim' = { sim with final_probabilities := [("全選考で落選", (1 : ℚ))] } :=
      (congrArg Prod.fst (Except.ok.inj h)).symm
    intro t ht
    rw [hs'] at ht
    dsimp only at ht
    rw [hnil] at ht
    simp at ht
  · obtain ⟨allocated, ha, hsim', hprobs⟩ := calculate_ok_of_ne hnil h
    obtain ⟨rate, hrr, hr0, hr1, hss⟩ := allocate_seats_ok hnil ha
    set pop := sim.core_fan_total_population with hpopdef
    have hstages' : sim'.stages = (calcLoop pop allocated 0 1 []).1 := by rw [hsim']
    have hmapseat := calcLoop_map_seatFields pop allocated 0 1 []
    have hnnA : ∀ s ∈ allocated, 0 ≤ s.allocated_seats_original := by
      intro s hs
      obtain ⟨t, ht, hts⟩ := mem_of_map_eq hmapseat.symm hs
      have halloc : t.allocated_seats_original = s.allocated_seats_original :=
        congrArg Prod.fst hts
      have ht' : t ∈ sim'.stages := by
        rw [hstages']
        exact ht
      have := hnn t ht'
      omega
    have heffB : ∀ s ∈ allocated, 0 ≤ s.effective_seats_for_new_winners
        ∧ s.effective_seats_for_new_winners ≤ s.allocated_seats_original := by
      intro s hs
      have hsA := hs
      rw [hss] at hsA
      obtain ⟨s₀, hs₀, hsdef⟩ := effectiveStages_mem hsA
      have halloc : s.allocated_seats_original = s₀.allocated_seats_original := by
        rw [hsdef]
      have h0 : (0 : ℤ) ≤ s₀.allocated_seats_original := by
        have := hnnA s hs
        omega
      have h0q : (0 : ℚ) ≤ (s₀.allocated_seats_original : ℚ) := by exact_mod_cast h0
      constructor
      · rw [hsdef]
        apply pyRound_nonneg
        apply mul_nonneg h0q
        linarith
      · rw [hsdef]
        apply pyRound_le_intCast
        nlinarith [mul_nonneg h0q hr0]
    have hcfg : allocated.map configOf = sim.stages.map configOf := by
      rw [hss, effectiveStages_map_config, allocStages_map_config]
    have hconf : ∀ s ∈ allocated,
        0 ≤ s.applicant_core_fan_frac ∧ 0 ≤ s.additional_applicants := by
      intro s hs
      obtain ⟨s₁, hs₁, hcs⟩ := mem_of_map_eq hcfg hs
      obtain ⟨⟨hf0, _⟩, ha0, _⟩ := reachable_stages hre s₁ hs₁
      have hfrac : s₁.applicant_core_fan_frac = s.applicant_core_fan_frac :=
        congrArg (fun c : String × ℚ × ℤ × ℚ => c.2.1) hcs
      have haddl : s₁.additional_applicants = s.additional_applicants :=
        congrArg (fun c : String × ℚ × ℤ × ℚ => c.2.2.1) hcs
      constructor
      · rw [← hfrac]
        exact hf0
      · omega
    intro t ht
    rw [hstages'] at ht
    obtain ⟨c, s, hsmem, htdef⟩ := calcLoop_mem pop allocated 0 1 [] t ht
    obtain ⟨heff0, heffle⟩ := heffB s hsmem
    obtain ⟨hf0, ha0⟩ := hconf s hsmem
    obtain ⟨hact0, hw0, hwle, hc0, hc1⟩ := stepStage_bounds pop c s heff0
    have halloc_t : t.allocated_seats_original = s.allocated_seats_original := by
      rw [htdef]
      exact stepStage_alloc pop c s
    have heff_t : t.effective_seats_for_new_winners = s.effective_seats_for_new_winners := by
      rw [htdef]
      exact stepStage_eff pop c s
    refine ⟨?_, ?_, ?_, ?_, ?_, ?_, ?_, ?_, ?_⟩
    · rw [halloc_t]
      exact hnnA s hsmem
    · rw [heff_t]
      exact heff0
    · rw [halloc_t, heff_t]
      exact heffle
    · rw [htdef, stepStage_premise]
      have hpr : 0 ≤ pyRound ((pop : ℚ) * s.applicant_core_fan_frac) :=
        pyRound_nonneg (mul_nonneg (by exact_mod_cast hpop) hf0)
      omega
    · rw [htdef]
      exact hact0
    · rw [htdef]
      exact hw0
    · rw [htdef]
      exact hwle
    · rw [htdef]
      exact hc0
    · rw [htdef]
      exact hc1

/-- Counterexample to claim C3 as literally stated: in the negative-seat
scenario (`LotterySimulator(2, 1, {"t": 1}, 10)` with weights 3, 3, 3, 1) the
last stage ends `calculate_probabilities()` with `allocatedSeats = -1 < 0`
(and consequently negative effective seats, winners and probability). -/
theorem claim_C3_cex : ∃ t ∈ resN.1.stages, ¬ (0 ≤ t.allocated_seats_original) := by
  decide

/-- Witness for (amended) C3 at scenario B, evaluated at its first stage. -/
theorem claim_C3_witness :
    0 ≤ (resB.1.stages.getD 0 dummyStage).allocated_seats_original
    ∧ 0 ≤ (resB.1.stages.getD 0 dummyStage).effective_seats_for_new_winners
    ∧ (resB.1.stages.getD 0 dummyStage).effective_seats_for_new_winners
        ≤ (resB.1.stages.getD 0 dummyStage).allocated_seats_original
    ∧ 0 ≤ (resB.1.stages.getD 0 dummyStage).premise_applicants_for_stage_type
    ∧ 0 ≤ (resB.1.stages.getD 0 dummyStage).actual_applicants_for_stage
    ∧ 0 ≤ (resB.1.stages.getD 0 dummyStage).winners_in_stage
    ∧ (resB.1.stages.getD 0 dummyStage).winners_in_stage ≤
        min (resB.1.stages.getD 0 dummyStage).effective_seats_for_new_winners
          (resB.1.stages.getD 0 dummyStage).actual_applicants_for_stage
    ∧ 0 ≤ (resB.1.stages.getD 0 dummyStage).conditional_win_prob_in_stage
    ∧ (resB.1.stages.getD 0 dummyStage).conditional_win_prob_in_stage ≤ 1 :=
  claim_C3 simB2 resB.1 resB.2 reachable_simB2 (by decide) (by decide) (by rfl)
    (resB.1.stages.getD 0 dummyStage) (by decide)

/-- Claim C4 (amended): for every simulator with at least one stage and a
successful seat allocation, every stage except the last receives
`round(totalSeatsForTargetEvents * weight / totalWeight)` and the last stage
receives `round(totalSeatsForTargetEvents - sum of prior allocatedSeats)`;
consequently, **whenever the fractional part of totalSeatsForTargetEvents is
not exactly 1/2**, the allocated seats sum to
`round(totalSeatsForTargetEvents)`.  The tie restriction is forced: at a
half-integer seat total, round-half-to-even applied to `total - priorSum` can
differ from `round(total) - priorSum` (see the counterexample). -/
theorem claim_C4 (sim : LotterySimulator) (ss : List LotteryStage)
    (hne : sim.stages ≠ []) (h : allocate_seats sim = Except.ok ss) :
    (∀ k, k + 1 < ss.length →
      (ss.getD k dummyStage).allocated_seats_original =
        pyRound (sim.total_seats_for_user_events *
          ((sim.stages.getD k dummyStage).weight / sim.total_weight)))
    ∧ (ss.getD (ss.length - 1) dummyStage).allocated_seats_original =
        pyRound (sim.total_seats_for_user_events -
          ((((ss.take (ss.length - 1)).map (fun t => t.allocated_seats_original)).sum : ℤ) : ℚ))
    ∧ (Int.fract sim.total_seats_for_user_events ≠ 1/2 →
        (ss.map (fun t => t.allocated_seats_original)).sum
          = pyRound sim.total_seats_for_user_events) := by
  obtain ⟨rate, hrr, hr0, hr1, hss⟩ := allocate_seats_ok hne h
  have hstgne : sim.stages.length ≠ 0 := fun h0 => hne (List.length_eq_zero.mp h0)
  have hlenA : (allocStages sim.total_seats_for_user_events sim.total_weight
      sim.stages 0).length = sim.stages.length :=
    allocStages_length sim.total_seats_for_user_events sim.total_weight sim.stages 0
  have hlen : ss.length = sim.stages.length := by
    rw [hss, effectiveStages_length, hlenA]
  have hmapalloc : ss.map (fun t => t.allocated_seats_original) =
      (allocStages sim.total_seats_for_user_events sim.total_weight
        sim.stages 0).map (fun t => t.allocated_seats_original) := by
    rw [hss]
    exact effectiveStages_map_alloc rate _
  have hgetalloc : ∀ k, k < ss.length →
      (ss.getD k dummyStage).allocated_seats_original =
        ((allocStages sim.total_seats_for_user_events sim.total_weight
          sim.stages 0).getD k dummyStage).allocated_seats_original := by
    intro k hk
    rw [hss, effectiveStages_getD rate _ k (by omega)]
  refine ⟨?_, ?_, ?_⟩
  · intro k hk
    rw [hgetalloc k (by omega),
      allocStages_getD sim.total_seats_for_user_events sim.total_weight
        sim.stages 0 k (by omega)]
    dsimp only
    rw [if_pos (by omega)]
  · rw [hgetalloc (ss.length - 1) (by omega),
      allocStages_getD sim.total_seats_for_user_events sim.total_weight
        sim.stages 0 (ss.length - 1) (by omega)]
    dsimp only
    rw [if_neg (by omega)]
    have htake : (ss.take (ss.length - 1)).map (fun t => t.allocated_seats_original)
        = (sim.stages.take (ss.length - 1)).map
            (fun s => pyRound (sim.total_seats_for_user_events *
              (s.weight / sim.total_weight))) := by
      rw [List.map_take, hmapalloc, ← List.map_take]
      exact allocStages_take_map sim.total_seats_for_user_events sim.total_weight
        sim.stages 0 (ss.length - 1) (by omega)
    rw [htake]
    have hcast : ((0 + interSum sim.total_seats_for_user_events sim.total_weight
        (sim.stages.take (ss.length - 1)) : ℤ)) =
        (((sim.stages.take (ss.length - 1)).map
          (fun s => pyRound (sim.total_seats_for_user_events *
            (s.weight / sim.total_weight)))).sum : ℤ) := by
      simp [interSum]
    rw [hcast]
  · intro hfr
    rw [hmapalloc,
      allocStages_sum sim.total_seats_for_user_events sim.total_weight hfr
        sim.stages 0 hne]
    omega

/-- Counterexample to claim C4 as literally stated: `LotterySimulator(5, 2,
{"t": 1}, 0)` has a half-integer seat total 5/2; with two stages of weight 1,
stage "A" gets round(1.25) = 1 and stage "B" gets round(2.5 - 1) = round(1.5)
= 2 (banker's rounding), so the seats sum to 3 while round(2.5) = 2. -/
theorem claim_C4_cex :
    ((listOrD (allocate_seats simT2)).map (fun t => t.allocated_seats_original)).sum = 3
    ∧ pyRound simT2.total_seats_for_user_events = 2
    ∧ ((listOrD (allocate_seats simT2)).map (fun t => t.allocated_seats_original)).sum
        ≠ pyRound simT2.total_seats_for_user_events := by
  refine ⟨by decide, by decide, by decide⟩

/-- Witness for (amended) C4 at scenario B (seat total 1000, no tie). -/
theorem claim_C4_witness :
    (∀ k, k + 1 < allocB.length →
      (allocB.getD k dummyStage).allocated_seats_original =
        pyRound (simB2.total_seats_for_user_events *
          ((simB2.stages.getD k dummyStage).weight / simB2.total_weight)))
    ∧ (allocB.getD (allocB.length - 1) dummyStage).allocated_seats_original =
        pyRound (simB2.total_seats_for_user_events -
          ((((allocB.take (allocB.length - 1)).map
            (fun t => t.allocated_seats_original)).sum : ℤ) : ℚ))
    ∧ (Int.fract simB2.total_seats_for_user_events ≠ 1/2 →
        (allocB.map (fun t => t.allocated_seats_original)).sum
          = pyRound simB2.total_seats_for_user_events) :=
  claim_C4 simB2 allocB (by decide) (by rfl)

/-- Claim C5 (confirmed): after a successful `calculate_probabilities()` on a
reachable simulator, each stage's `actualApplicants` equals
`max(0, premiseApplicants - sum of winners of all earlier stages)` where
`premiseApplicants = round(coreFanPopulation * coreFanRatio) + extraApplicants`. -/
theorem claim_C5 (sim sim' : LotterySimulator) (probs : List (String × ℚ))
    (hre : Reachable sim)
    (h : calculate_probabilities sim = Except.ok (sim', probs))
    (k : ℕ) (hk : k < sim'.stages.length) :
    (sim'.stages.getD k dummyStage).premise_applicants_for_stage_type =
      pyRound ((sim'.core_fan_total_population : ℚ) *
        (sim'.stages.getD k dummyStage).applicant_core_fan_frac)
        + (sim'.stages.getD k dummyStage).additional_applicants
    ∧ (sim'.stages.getD k dummyStage).actual_applicants_for_stage =
      max 0 ((sim'.stages.getD k dummyStage).premise_applicants_for_stage_type -
        ((sim'.stages.take k).map (fun t => t.winners_in_stage)).sum) := by
  by_cases hnil : sim.stages = []
  · rw [calculate_nil hnil] at h
    have hs' : sim' = { sim with final_probabilities := [("全選考で落選", (1 : ℚ))] } :=
      (congrArg Prod.fst (Except.ok.inj h)).symm
    rw [hs'] at hk
    dsimp only at hk
    rw [hnil] at hk
    simp at hk
  · obtain ⟨allocated, ha, hsim', hprobs⟩ := calculate_ok_of_ne hnil h
    set pop := sim.core_fan_total_population with hpopdef
    have hcore : sim'.core_fan_total_population = pop := by rw [hsim']
    have hstages' : sim'.stages = (calcLoop pop allocated 0 1 []).1 := by rw [hsim']
    have hklen : k < allocated.length := by
      rw [hstages', calcLoop_length] at hk
      exact hk
    have hget := calcLoop_getD pop allocated 0 1 [] k hklen
    rw [hstages', hcore, hget]
    constructor
    · rw [stepStage_premise, stepStage_frac, stepStage_addl]
    · rw [stepStage_actual]
      congr 1
      omega

/-- Witness for C5 at scenario B, stage index 1. -/
theorem claim_C5_witness :
    (resB.1.stages.getD 1 dummyStage).premise_applicants_for_stage_type =
      pyRound ((resB.1.core_fan_total_population : ℚ) *
        (resB.1.stages.getD 1 dummyStage).applicant_core_fan_frac)
        + (resB.1.stages.getD 1 dummyStage).additional_applicants
    ∧ (resB.1.stages.getD 1 dummyStage).actual_applicants_for_stage =
      max 0 ((resB.1.stages.getD 1 dummyStage).premise_applicants_for_stage_type -
        ((resB.1.stages.take 1).map (fun t => t.winners_in_stage)).sum) :=
  claim_C5 simB2 resB.1 resB.2 reachable_simB2 (by rfl) 1 (by decide)

/-- Claim C6 (confirmed): the concrete scenario with totalAttendance 10000,
numEvents 10, targetEventCounts {"test": 1}, coreFanPopulation 1000, stages
S1 = (0.5, 0, 1) and S2 = (1.0, 0, 1), and seat-reduction rate 0.2 produces
exactly the claimed per-stage figures and probabilities: stage S1 gets 400
effective seats, 400 winners and conditional probability 0.8 (P(win@S1) =
0.8); stage S2 gets 400 effective seats, 1000 premise applicants, 600 actual
applicants, 400 winners and conditional probability 400/600; P(win@S2) =
0.2·(400/600) and P(no-win) = 0.2·(1 − 400/600). -/
theorem claim_C6 :
    resB.1.stages.map (fun s => (s.effective_seats_for_new_winners,
      s.premise_applicants_for_stage_type, s.actual_applicants_for_stage,
      s.winners_in_stage, s.conditional_win_prob_in_stage))
      = [(400, 500, 500, 400, 4/5), (400, 1000, 600, 400, 400/600)]
    ∧ resB.2.lookup "S1で当選" = some (4/5)
    ∧ resB.2.lookup "S2で当選" = some ((1/5) * (400/600))
    ∧ resB.2.lookup "全選考で落選" = some ((1/5) * (1 - 400/600)) := by
  refine ⟨by decide, by decide, by decide, by decide⟩

theorem map_set_weight : ∀ (l : List LotteryStage) (i : ℕ) (a : LotteryStage),
    (l.set i a).map (fun s => s.weight) = (l.map (fun s => s.weight)).set i a.weight
  | [], _, _ => by simp
  | x :: l, 0, a => by simp
  | x :: l, i + 1, a => by
    simp only [List.set_cons_succ, List.map_cons]
    rw [map_set_weight l i a]

/-- Claim C8 (confirmed): with a nonnegative seat total and positive weights,
replacing one stage by the same stage with a larger weight (so the weight
total grows accordingly while every other stage's weight is unchanged) never
decreases that stage's own allocated seat count. -/
theorem claim_C8 (total : ℚ) (ss : List LotteryStage) (j : ℕ) (t : LotteryStage)
    (htot : 0 ≤ total) (hpos : ∀ s ∈ ss, 0 < s.weight) (hj : j < ss.length)
    (hw : (ss.getD j dummyStage).weight ≤ t.weight) :
    ((allocStages total ((ss.map (fun s => s.weight)).sum) ss 0).getD j
        dummyStage).allocated_seats_original
      ≤ ((allocStages total (((ss.set j t).map (fun s => s.weight)).sum)
            (ss.set j t) 0).getD j dummyStage).allocated_seats_original := by
  have hlen' : (ss.set j t).length = ss.length := List.length_set ss j t
  have hjpos : 0 < (ss.getD j dummyStage).weight := hpos _ (getD_mem dummyStage ss j hj)
  have hwjmem : (ss.getD j dummyStage).weight ∈ ss.map (fun s => s.weight) :=
    List.mem_map_of_mem (fun s => s.weight) (getD_mem dummyStage ss j hj)
  have hwnn : ∀ x ∈ ss.map (fun s => s.weight), 0 ≤ x := by
    intro x hx
    obtain ⟨s, hs, hsx⟩ := List.mem_map.mp hx
    rw [← hsx]
    exact le_of_lt (hpos s hs)
  have hwjle : (ss.getD j dummyStage).weight ≤ (ss.map (fun s => s.weight)).sum :=
    List.single_le_sum hwnn _ hwjmem
  have hWpos : 0 < (ss.map (fun s => s.weight)).sum := lt_of_lt_of_le hjpos hwjle
  have hW'val : ((ss.set j t).map (fun s => s.weight)).sum
      = (ss.map (fun s => s.weight)).sum - (ss.getD j dummyStage).weight + t.weight := by
    rw [map_set_weight ss j t]
    rw [qsum_set _ j _ (by simpa using hj)]
    rw [getD_map_lt (fun s => s.weight) dummyStage 0 ss j hj]
  have hW'ge : (ss.map (fun s => s.weight)).sum
      ≤ ((ss.set j t).map (fun s => s.weight)).sum := by
    rw [hW'val]
    linarith
  have hW'pos : 0 < ((ss.set j t).map (fun s => s.weight)).sum :=
    lt_of_lt_of_le hWpos hW'ge
  rw [allocStages_getD total _ ss 0 j hj,
    allocStages_getD total _ (ss.set j t) 0 j (by omega)]
  dsimp only
  by_cases hc : j + 1 < ss.length
  · rw [if_pos hc, if_pos (by omega)]
    rw [getD_set_self dummyStage ss j t hj]
    apply pyRound_mono
    apply mul_le_mul_of_nonneg_left ?_ htot
    rw [div_le_div_iff hWpos hW'pos]
    rw [hW'val]
    nlinarith [mul_nonneg (sub_nonneg.mpr hw) (sub_nonneg.mpr hwjle)]
  · rw [if_neg hc, if_neg (by omega)]
    rw [take_set ss j t]
    apply pyRound_mono
    have hIle : interSum total (((ss.set j t).map (fun s => s.weight)).sum) (ss.take j)
        ≤ interSum total ((ss.map (fun s => s.weight)).sum) (ss.take j) := by
      unfold interSum
      apply List.sum_le_sum
      intro s hs
      have hsw : 0 < s.weight := hpos s (List.mem_of_mem_take hs)
      apply pyRound_mono
      apply mul_le_mul_of_nonneg_left ?_ htot
      rw [div_le_div_iff hW'pos hWpos]
      exact mul_le_mul_of_nonneg_left hW'ge (le_of_lt hsw)
    have hcast : ((0 + interSum total (((ss.set j t).map (fun s => s.weight)).sum)
          (ss.take j) : ℤ) : ℚ)
        ≤ ((0 + interSum total ((ss.map (fun s => s.weight)).sum) (ss.take j) : ℤ) : ℚ) := by
      exact_mod_cast by omega
    linarith

/-- Witness for C8: two unit-weight stages, seat total 100, raising the first
stage weight from 1 to 2. -/
theorem claim_C8_witness :
    ((allocStages 100 ((wC8ss.map (fun s => s.weight)).sum) wC8ss 0).getD 0
        dummyStage).allocated_seats_original
      ≤ ((allocStages 100
            (((wC8ss.set 0 (mkStage "A" 0 0 2)).map (fun s => s.weight)).sum)
            (wC8ss.set 0 (mkStage "A" 0 0 2)) 0).getD 0
          dummyStage).allocated_seats_original :=
  claim_C8 100 wC8ss 0 (mkStage "A" 0 0 2) (by norm_num) (by decide) (by decide)
    (by decide)
